import Mathlib

/-!
Verification of the Grasp learning application (frontend store, chat flow,
HTTP API client) against its natural-language specification.

The data model and operations below are shallow embeddings of the
TypeScript sources:
  * `frontend/src/store/learningStore.ts` (Zustand store),
  * `frontend/src/services/api.ts` (Axios API client),
  * `electron-app/src/renderer/src/components/ChatInterface.tsx` (chat send flow),
plus spec-modelled definitions for the transcript chunker (§4.1) and the
context retriever (§4.2), whose implementations are not part of the
visible sources.

Timestamps and durations are JavaScript numbers in the source; they are
modelled as rationals (`Rat`).  JavaScript `Array.prototype.sort` is a
stable sort; it is modelled with `List.insertionSort`, which is stable.
-/

namespace Grasp

/-- The active sidebar tab, `activeTab: 'chat' | 'notes'` in the store. -/
inductive Tab where
  | chat
  | notes
deriving DecidableEq, Repr

/-- Role of a chat message, `role: 'user' | 'assistant'` in `api.ts`. -/
inductive Role where
  | user
  | assistant
deriving DecidableEq, Repr

/-- The `Video` interface of `frontend/src/services/api.ts`. -/
structure Video where
  id : String
  youtube_id : String
  title : String
  duration : Rat
  chunk_count : Option Nat
deriving DecidableEq, Repr

/-- An element of `context_chunks` in the `ChatMessage` interface of `api.ts`. -/
structure ContextChunk where
  text : String
  start_time : Rat
  end_time : Rat
deriving DecidableEq, Repr

/-- The `ChatMessage` interface of `frontend/src/services/api.ts`. -/
structure ChatMessage where
  role : Role
  content : String
  context_chunks : Option (List ContextChunk)
deriving DecidableEq, Repr

/-- The `Note` interface of `frontend/src/services/api.ts`. -/
structure Note where
  id : Nat
  video_id : String
  timestamp : Rat
  content : String
  tags : List String
  created_at : String
  updated_at : String
deriving DecidableEq, Repr

/-- A `Partial<Note>` update object: each field may be present or absent.
Mirrors the `updates: Partial<Note>` parameter of the store action
`updateNote` in `learningStore.ts`. -/
structure NoteUpdate where
  id : Option Nat := none
  video_id : Option String := none
  timestamp : Option Rat := none
  content : Option String := none
  tags : Option (List String) := none
  created_at : Option String := none
  updated_at : Option String := none
deriving DecidableEq, Repr

/-- JavaScript object spread `{ ...n, ...updates }`: a field of the result
comes from `updates` when present there, otherwise from `n`. -/
def mergeNote (n : Note) (u : NoteUpdate) : Note where
  id := u.id.getD n.id
  video_id := u.video_id.getD n.video_id
  timestamp := u.timestamp.getD n.timestamp
  content := u.content.getD n.content
  tags := u.tags.getD n.tags
  created_at := u.created_at.getD n.created_at
  updated_at := u.updated_at.getD n.updated_at

/-- The state fields of the `LearningState` interface in
`frontend/src/store/learningStore.ts`. -/
structure LearningState where
  currentVideo : Option Video
  currentTimestamp : Rat
  isPlaying : Bool
  messages : List ChatMessage
  isLoadingChat : Bool
  notes : List Note
  activeTab : Tab
  isLoadingVideo : Bool
  error : Option String
deriving DecidableEq, Repr

/-- `initialState` from `learningStore.ts`. -/
def initialState : LearningState where
  currentVideo := none
  currentTimestamp := 0
  isPlaying := false
  messages := []
  isLoadingChat := false
  notes := []
  activeTab := Tab.chat
  isLoadingVideo := false
  error := none

/-- Store action `setCurrentVideo: (video) => set({ currentVideo: video, error: null })`. -/
def setCurrentVideo (video : Option Video) (s : LearningState) : LearningState :=
  { s with currentVideo := video, error := none }

/-- Store action `setCurrentTimestamp`. -/
def setCurrentTimestamp (timestamp : Rat) (s : LearningState) : LearningState :=
  { s with currentTimestamp := timestamp }

/-- Store action `setIsPlaying`. -/
def setIsPlaying (isPlaying : Bool) (s : LearningState) : LearningState :=
  { s with isPlaying := isPlaying }

/-- Store action `setMessages`. -/
def setMessages (messages : List ChatMessage) (s : LearningState) : LearningState :=
  { s with messages := messages }

/-- Store action `addMessage: (message) => set((state) => ({ messages: [...state.messages, message] }))`. -/
def addMessage (message : ChatMessage) (s : LearningState) : LearningState :=
  { s with messages := s.messages ++ [message] }

/-- Store action `setIsLoadingChat`. -/
def setIsLoadingChat (loading : Bool) (s : LearningState) : LearningState :=
  { s with isLoadingChat := loading }

/-- Store action `setNotes`. -/
def setNotes (notes : List Note) (s : LearningState) : LearningState :=
  { s with notes := notes }

/-- Comparison used by the sort in `addNote`:
`(a, b) => a.timestamp - b.timestamp` orders notes by ascending timestamp. -/
def noteLE (a b : Note) : Prop := a.timestamp ≤ b.timestamp

instance : DecidableRel noteLE :=
  fun a b => inferInstanceAs (Decidable (a.timestamp ≤ b.timestamp))

instance : IsTotal Note noteLE := ⟨fun a b => le_total a.timestamp b.timestamp⟩

instance : IsTrans Note noteLE := ⟨fun _ _ _ h h2 => le_trans h h2⟩

/-- Store action
`addNote: (note) => set((state) => ({ notes: [...state.notes, note].sort((a, b) => a.timestamp - b.timestamp) }))`.
JavaScript sort is stable; it is modelled by the stable `insertionSort`. -/
def addNote (note : Note) (s : LearningState) : LearningState :=
  { s with notes := List.insertionSort noteLE (s.notes ++ [note]) }

/-- Store action
`updateNote: (noteId, updates) => set((state) => ({ notes: state.notes.map((n) => n.id === noteId ? { ...n, ...updates } : n) }))`. -/
def updateNote (noteId : Nat) (updates : NoteUpdate) (s : LearningState) : LearningState :=
  { s with notes := s.notes.map (fun n => if n.id == noteId then mergeNote n updates else n) }

/-- Store action
`removeNote: (noteId) => set((state) => ({ notes: state.notes.filter((n) => n.id !== noteId) }))`. -/
def removeNote (noteId : Nat) (s : LearningState) : LearningState :=
  { s with notes := s.notes.filter (fun n => n.id != noteId) }

/-- Store action `setActiveTab`. -/
def setActiveTab (tab : Tab) (s : LearningState) : LearningState :=
  { s with activeTab := tab }

/-- Store action `setIsLoadingVideo`. -/
def setIsLoadingVideo (loading : Bool) (s : LearningState) : LearningState :=
  { s with isLoadingVideo := loading }

/-- Store action `setError`. -/
def setError (error : Option String) (s : LearningState) : LearningState :=
  { s with error := error }

/-- Store action `reset: () => set(initialState)`: since `initialState` lists
every field, merging it into the state replaces the whole state. -/
def reset (_s : LearningState) : LearningState := initialState

/-- The notes list is sorted ascending by timestamp. -/
def sortedNotes (l : List Note) : Prop := List.Sorted noteLE l

instance (l : List Note) : Decidable (sortedNotes l) :=
  inferInstanceAs (Decidable (List.Pairwise noteLE l))

/-! ### Chat send flow (`ChatInterface.tsx`, `handleSend`)

`handleSend` trims the input, returns early when the input is empty, no
video is loaded, or a request is already in flight; otherwise it appends
the user message, sets the loading flag, awaits `sendMessage`, and on
success appends the provider response while on failure it sets the error
banner.  The asynchronous outcome of `sendMessage` is passed in explicitly
as an `Except`: `.ok` is a resolved response, `.error` a thrown request. -/

/-- JavaScript `String.prototype.trim()`: the string with leading and
trailing whitespace removed, modelled executably over the character
list. -/
def strTrim (s : String) : String :=
  ((s.data.dropWhile Char.isWhitespace).reverse.dropWhile Char.isWhitespace).reverse.asString

/-- The user-role message that `handleSend` appends before the request. -/
def userMsg (content : String) : ChatMessage where
  role := Role.user
  content := content
  context_chunks := none

/-- The error banner text set by `handleSend` on a failed request. -/
def sendFailureText : String := "Failed to send message. Is the backend running?"

/-- `handleSend` from `ChatInterface.tsx`, with the outcome of the awaited
`sendMessage` call made explicit. -/
def handleSend (input : String) (outcome : Except String ChatMessage)
    (s : LearningState) : LearningState :=
  if strTrim input = "" ∨ s.currentVideo = none ∨ s.isLoadingChat = true then s
  else
    let s1 := setIsLoadingChat true (addMessage (userMsg (strTrim input)) s)
    match outcome with
    | Except.ok response => setIsLoadingChat false (addMessage response s1)
    | Except.error _ => setIsLoadingChat false (setError (some sendFailureText) s1)

/-- A sequence of chat sends, each with its question and resolved response. -/
def sendAll (sends : List (String × ChatMessage)) (s : LearningState) : LearningState :=
  sends.foldl (fun t p => handleSend p.1 (Except.ok p.2) t) s

/-- A message log alternates user/assistant per exchange, starting with a
user message: it is a concatenation of user-assistant pairs. -/
def alternates : List ChatMessage → Bool
  | [] => true
  | [_] => false
  | u :: a :: rest => u.role == Role.user && a.role == Role.assistant && alternates rest

/-! ### HTTP API client (`frontend/src/services/api.ts`)

Each client function is modelled by the request it issues: method, path and
JSON body.  Optional TypeScript parameters are modelled as `Option`
arguments (`none` = argument omitted at the call site); a default
parameter value is applied with `getD`.  An omitted optional parameter
without a default flows into the body as `undefined`. -/

/-- An HTTP method used by the client. -/
inductive HttpMethod where
  | get
  | post
  | put
  | delete
deriving DecidableEq, Repr

/-- A JSON-ish value as serialised into a request body (the only arrays the
client sends are string arrays of tags). `undef` stands for JavaScript
`undefined` appearing as an object field value. -/
inductive JsonVal where
  | str (s : String)
  | num (q : Rat)
  | arr (xs : List String)
  | undef
deriving DecidableEq, Repr

/-- An `Option String` body field: present value or `undefined`. -/
def jsonOfStrOpt : Option String → JsonVal
  | some s => JsonVal.str s
  | none => JsonVal.undef

/-- An `Option (List String)` body field: present array or `undefined`. -/
def jsonOfTagsOpt : Option (List String) → JsonVal
  | some ts => JsonVal.arr ts
  | none => JsonVal.undef

/-- An HTTP request as issued by the Axios client: method, path and JSON
body (empty list for requests without a body). -/
structure ApiRequest where
  method : HttpMethod
  path : String
  body : List (String × JsonVal)
deriving DecidableEq, Repr

/-- `sendMessage(videoId, message, currentTimestamp = 0)` issues
`POST /api/chat/message` with body `{video_id, message, current_timestamp}`. -/
def sendMessage (videoId message : String) (currentTimestamp : Option Rat) : ApiRequest where
  method := HttpMethod.post
  path := "/api/chat/message"
  body := [("video_id", JsonVal.str videoId),
           ("message", JsonVal.str message),
           ("current_timestamp", JsonVal.num (currentTimestamp.getD 0))]

/-- `createNote(videoId, timestamp, content, tags = [])` issues
`POST /api/notes` with body `{video_id, timestamp, content, tags}`. -/
def createNote (videoId : String) (timestamp : Rat) (content : String)
    (tags : Option (List String)) : ApiRequest where
  method := HttpMethod.post
  path := "/api/notes"
  body := [("video_id", JsonVal.str videoId),
           ("timestamp", JsonVal.num timestamp),
           ("content", JsonVal.str content),
           ("tags", JsonVal.arr (tags.getD []))]

/-- `updateNote(noteId, content?, tags?)` issues `PUT /api/notes/{id}` with
body `{content, tags}`. -/
def updateNoteRequest (noteId : Nat) (content : Option String)
    (tags : Option (List String)) : ApiRequest where
  method := HttpMethod.put
  path := "/api/notes/" ++ toString noteId
  body := [("content", jsonOfStrOpt content), ("tags", jsonOfTagsOpt tags)]

/-- `deleteNote(noteId)` issues `DELETE /api/notes/{id}` with no body. -/
def deleteNoteRequest (noteId : Nat) : ApiRequest where
  method := HttpMethod.delete
  path := "/api/notes/" ++ toString noteId
  body := []

/-- Response to a successful HTTP request (contents irrelevant here). -/
structure HttpResponse where
  status : Nat
  bodyText : String
deriving DecidableEq, Repr

/-- `healthCheck` from `api.ts`: `try { await api.get('/health'); return true } catch { return false }`.
The outcome of the GET request is passed in explicitly; the `catch` with no
binder swallows every thrown error. -/
def healthCheck (outcome : Except String HttpResponse) : Bool :=
  match outcome with
  | Except.ok _ => true
  | Except.error _ => false

namespace Retriever

/-- Modelled from the spec: a transcript chunk as used by the context
retriever (§4.2).  The retriever implementation itself is not among the
visible sources (only its REST interface is); the chunk carries the id
used for deduplication, the `chunk_index` used for tie-breaking, and its
time window. -/
structure Chunk where
  id : Nat
  chunk_index : Nat
  start_time : Rat
  end_time : Rat
  text : String
deriving DecidableEq, Repr

/-- Modelled from the spec: similarity ranking of chunks against the
question — higher embedding similarity first, ties broken by
`chunk_index` ascending (§4.2).  The embedding similarity of each chunk to
the question is abstracted as a score function `sim`. -/
def simRank (sim : Chunk → Rat) (a b : Chunk) : Prop :=
  sim b < sim a ∨ (sim a = sim b ∧ a.chunk_index ≤ b.chunk_index)

instance (sim : Chunk → Rat) : DecidableRel (simRank sim) :=
  fun a b =>
    inferInstanceAs (Decidable (sim b < sim a ∨ (sim a = sim b ∧ a.chunk_index ≤ b.chunk_index)))

instance (sim : Chunk → Rat) : IsTotal Chunk (simRank sim) where
  total a b := by
    rcases lt_trichotomy (sim a) (sim b) with h | h | h
    · exact Or.inr (Or.inl h)
    · rcases le_total a.chunk_index b.chunk_index with hi | hi
      · exact Or.inl (Or.inr ⟨h, hi⟩)
      · exact Or.inr (Or.inr ⟨h.symm, hi⟩)
    · exact Or.inl (Or.inl h)

/-- Modelled from the spec: the top-K (K = 5) chunks by embedding
similarity to the question, ties broken by `chunk_index` ascending
(§4.2). -/
def topChunks (sim : Chunk → Rat) (chunks : List Chunk) : List Chunk :=
  (List.insertionSort (simRank sim) chunks).take 5

/-- Modelled from the spec: the chunk's time window `[start_time, end_time]`
intersects `[t − 120, t + 120]` (§4.2). -/
def windowHit (t : Rat) (c : Chunk) : Bool :=
  decide (c.start_time ≤ t + 120) && decide (t - 120 ≤ c.end_time)

/-- Modelled from the spec: all chunks whose time window intersects
`[t − 120, t + 120]` (§4.2). -/
def windowChunks (t : Rat) (chunks : List Chunk) : List Chunk :=
  chunks.filter (windowHit t)

/-- Modelled from the spec: the context passed to the chat model — union of
the top-5 similarity chunks and the timestamp-window chunks, deduplicated
by chunk id (§4.2). -/
def retrieveContext (sim : Chunk → Rat) (t : Rat) (chunks : List Chunk) : List Chunk :=
  let top := topChunks sim chunks
  top ++ (windowChunks t chunks).filter (fun c => !(top.any (fun d => d.id == c.id)))

end Retriever

namespace Chunker

/-- Modelled from the spec: one line of the transcript with per-line timing
and a token count (§4.1).  The chunker implementation is not among the
visible sources. -/
structure Line where
  text : String
  start_time : Rat
  end_time : Rat
  tokens : Nat
deriving DecidableEq, Repr

/-- Modelled from the spec: greedy grouping of transcript lines into chunks
of 500–1000 tokens — lines are accumulated (in reverse, in `cur`) until the
running token count reaches 500, at which point a chunk is emitted; a final
partial chunk is emitted for the remaining lines (§4.1). -/
def splitAux : List Line → List Line → Nat → List (List Line)
  | [], cur, _ => if cur.isEmpty then [] else [cur.reverse]
  | l :: ls, cur, tok =>
    if 500 ≤ tok + l.tokens then (l :: cur).reverse :: splitAux ls [] 0
    else splitAux ls (l :: cur) (tok + l.tokens)

/-- Modelled from the spec: the ordered line groups of the chunker (§4.1). -/
def chunkGroups (lines : List Line) : List (List Line) := splitAux lines [] 0

/-- Modelled from the spec: an output chunk with its sequence index and
start/end time (§4.1). -/
structure Chunk where
  chunk_index : Nat
  start_time : Rat
  end_time : Rat
  text : String
deriving DecidableEq, Repr

/-- Start time of a line group: the start time of its first line. -/
def groupStart (g : List Line) : Rat := (g.head?.map Line.start_time).getD 0

/-- End time of a line group: the end time of its last line. -/
def groupEnd (g : List Line) : Rat := (g.getLast?.map Line.end_time).getD 0

/-- Text of a line group: its lines joined. -/
def groupText (g : List Line) : String := String.intercalate " " (g.map Line.text)

/-- Modelled from the spec: the transcript chunker — an ordered sequence of
chunks, each carrying start/end time and a sequential `chunk_index`
(§4.1). -/
def chunkTranscript (lines : List Line) : List Chunk :=
  (chunkGroups lines).enum.map (fun p =>
    { chunk_index := p.1, start_time := groupStart p.2,
      end_time := groupEnd p.2, text := groupText p.2 })

/-- Transcript lines come with consecutive, non-overlapping timing. -/
def linesOrdered (L : List Line) : Prop :=
  List.Chain' (fun a b => a.end_time ≤ b.start_time) L

/-- Each transcript line has a well-formed time window. -/
def linesWF (L : List Line) : Prop := ∀ l ∈ L, l.start_time ≤ l.end_time

instance (L : List Line) : Decidable (linesOrdered L) :=
  inferInstanceAs
    (Decidable (List.Chain' (fun a b => Line.end_time a ≤ Line.start_time b) L))

instance (L : List Line) : Decidable (linesWF L) :=
  inferInstanceAs (Decidable (∀ l ∈ L, Line.start_time l ≤ Line.end_time l))

end Chunker

/-! ### Concrete values used by counterexamples and witnesses -/

/-- A note at timestamp 0. -/
def noteA : Note where
  id := 1
  video_id := "v"
  timestamp := 0
  content := "first"
  tags := []
  created_at := ""
  updated_at := ""

/-- A note at timestamp 10. -/
def noteB : Note where
  id := 2
  video_id := "v"
  timestamp := 10
  content := "second"
  tags := []
  created_at := ""
  updated_at := ""

/-- A note at timestamp 5. -/
def noteC : Note where
  id := 3
  video_id := "v"
  timestamp := 5
  content := "middle"
  tags := []
  created_at := ""
  updated_at := ""

/-- A store state holding the two sorted notes `noteA`, `noteB`. -/
def demoState : LearningState := { initialState with notes := [noteA, noteB] }

/-- A `Partial<Note>` update that moves the timestamp to 20. -/
def tsUpdate : NoteUpdate := { timestamp := some 20 }

/-- A `Partial<Note>` update that only edits the content. -/
def contentUpdate : NoteUpdate := { content := some "edited" }

/-- A provider response message. -/
def demoResp : ChatMessage where
  role := Role.assistant
  content := "answer"
  context_chunks := none

/-- A loaded video. -/
def demoVideo : Video where
  id := "vid"
  youtube_id := "yt"
  title := "T"
  duration := 100
  chunk_count := some 3

/-- A store state with a loaded video and an empty chat log. -/
def chatState : LearningState := { initialState with currentVideo := some demoVideo }

/-- Three retriever chunks with distinct ids. -/
def demoChunks : List Retriever.Chunk :=
  [{ id := 0, chunk_index := 0, start_time := 0, end_time := 60, text := "a" },
   { id := 1, chunk_index := 1, start_time := 60, end_time := 120, text := "b" },
   { id := 2, chunk_index := 2, start_time := 120, end_time := 180, text := "c" }]

/-- A similarity score for the demo chunks. -/
def demoSim (c : Retriever.Chunk) : Rat := c.start_time

/-- Three consecutive transcript lines of 300 tokens each. -/
def demoLines : List Chunker.Line :=
  [{ text := "x", start_time := 0, end_time := 10, tokens := 300 },
   { text := "y", start_time := 10, end_time := 20, tokens := 300 },
   { text := "z", start_time := 20, end_time := 30, tokens := 300 }]

/-! ## Theorems -/

/-- In `updateNote`, an update whose timestamp field is absent leaves every
note's timestamp unchanged. -/
theorem updateNote_timestamp_eq (i : Nat) (u : NoteUpdate) (hu : u.timestamp = none)
    (n : Note) : ((if n.id == i then mergeNote n u else n)).timestamp = n.timestamp := by
  by_cases h : n.id == i <;> simp [h, mergeNote, hu]

/-- Claim C9: `reset` restores the store to exactly its initial state from
every reachable state: afterwards `currentVideo` is `null`,
`currentTimestamp` is 0, `isPlaying` is `false`, `messages` and `notes` are
empty, `isLoadingChat` and `isLoadingVideo` are `false`, `activeTab` is
`chat`, and `error` is `null`. -/
theorem reset_restores_initialState (s : LearningState) :
    reset s = initialState ∧
      (reset s).currentVideo = none ∧
      (reset s).currentTimestamp = 0 ∧
      (reset s).isPlaying = false ∧
      (reset s).messages = [] ∧
      (reset s).notes = [] ∧
      (reset s).isLoadingChat = false ∧
      (reset s).isLoadingVideo = false ∧
      (reset s).activeTab = Tab.chat ∧
      (reset s).error = none :=
  ⟨rfl, rfl, rfl, rfl, rfl, rfl, rfl, rfl, rfl, rfl⟩

/-- Claim C10: for every store state and every video argument `v` (including
`null`), `setCurrentVideo v` sets `currentVideo` to `v`, clears `error` to
`null`, and leaves every other field of the state unchanged. -/
theorem setCurrentVideo_frame (s : LearningState) (v : Option Video) :
    (setCurrentVideo v s).currentVideo = v ∧
      (setCurrentVideo v s).error = none ∧
      (setCurrentVideo v s).currentTimestamp = s.currentTimestamp ∧
      (setCurrentVideo v s).isPlaying = s.isPlaying ∧
      (setCurrentVideo v s).messages = s.messages ∧
      (setCurrentVideo v s).isLoadingChat = s.isLoadingChat ∧
      (setCurrentVideo v s).notes = s.notes ∧
      (setCurrentVideo v s).activeTab = s.activeTab ∧
      (setCurrentVideo v s).isLoadingVideo = s.isLoadingVideo :=
  ⟨rfl, rfl, rfl, rfl, rfl, rfl, rfl, rfl, rfl⟩

/-- Claim C2: deleting a note removes exactly that id and no other — for
every notes list and every note id, `removeNote id` produces the sublist of
notes whose id differs from the given id, in the same relative order, with
every kept note unchanged field for field. -/
theorem removeNote_removes_exactly_id (s : LearningState) (i : Nat) :
    ((removeNote i s).notes).Sublist s.notes ∧
      ∀ n : Note, n ∈ (removeNote i s).notes ↔ (n ∈ s.notes ∧ n.id ≠ i) := by
  constructor
  · exact List.filter_sublist _
  · intro n
    simp [removeNote, List.mem_filter]

/-- Counterexample to claim C1 as stated: in the sorted two-note state
`demoState`, the `updateNote` action with an update that moves note 1's
timestamp from 0 to 20 leaves the list `[timestamp 20, timestamp 10]`,
which is no longer timestamp-sorted — `updateNote` never re-sorts. -/
theorem updateNote_timestamp_breaks_sort :
    sortedNotes demoState.notes ∧
      (tsUpdate.timestamp = some 20) ∧
      ¬ sortedNotes ((updateNote 1 tsUpdate demoState).notes) := by
  refine ⟨by decide, rfl, by decide⟩

/-- Claim C1 (amended): for every store state whose notes list is
timestamp-sorted ascending, `addNote` and `removeNote` yield a
timestamp-sorted list for every argument, and `updateNote` yields a
timestamp-sorted list for every update that does not change the timestamp
field (an update that sets a new timestamp can break the order, see the
counterexample). -/
theorem notes_sorted_after_ops (s : LearningState) (note : Note) (i : Nat)
    (u : NoteUpdate) (hs : sortedNotes s.notes) (hu : u.timestamp = none) :
    sortedNotes ((addNote note s).notes) ∧
      sortedNotes ((removeNote i s).notes) ∧
      sortedNotes ((updateNote i u s).notes) := by
  refine ⟨List.sorted_insertionSort noteLE _, ?_, ?_⟩
  · exact List.Pairwise.sublist (List.filter_sublist _) hs
  · unfold updateNote sortedNotes List.Sorted
    rw [List.pairwise_map]
    exact hs.imp (fun {a b} hab => by
      simp only [noteLE, updateNote_timestamp_eq i u hu]
      exact hab)

/-- Witness for claim C1: the amended statement applied to the concrete
sorted state `demoState`, the new note `noteC`, id 1, and the
timestamp-free update `contentUpdate`. -/
theorem notes_sorted_after_ops_witness :
    sortedNotes demoState.notes ∧ contentUpdate.timestamp = none ∧
      (sortedNotes ((addNote noteC demoState).notes) ∧
        sortedNotes ((removeNote 1 demoState).notes) ∧
        sortedNotes ((updateNote 1 contentUpdate demoState).notes)) :=
  ⟨by decide, rfl, notes_sorted_after_ops demoState noteC 1 contentUpdate (by decide) rfl⟩

/-- Claim C6: `healthCheck` is total and non-blocking — it returns `true`
when the `GET /health` request succeeds and `false` when it throws for any
reason; being a total `Bool`-valued function it never propagates an
exception to its caller. -/
theorem healthCheck_total :
    (∀ r : HttpResponse, healthCheck (Except.ok r) = true) ∧
      ∀ e : String, healthCheck (Except.error e) = false :=
  ⟨fun _ => rfl, fun _ => rfl⟩

/-- Claim C7: the API client consumes exactly the specified REST surface —
`sendMessage` issues `POST /api/chat/message` with body
`{video_id, message, current_timestamp}` where `current_timestamp`
defaults to 0; `createNote` issues `POST /api/notes` with body
`{video_id, timestamp, content, tags}` where `tags` defaults to `[]`;
`updateNote` issues `PUT /api/notes/{id}` with body `{content, tags}`; and
`deleteNote` issues `DELETE /api/notes/{id}`. -/
theorem api_request_shapes :
    (∀ v m : String, sendMessage v m none =
        { method := HttpMethod.post, path := "/api/chat/message",
          body := [("video_id", JsonVal.str v), ("message", JsonVal.str m),
                   ("current_timestamp", JsonVal.num 0)] }) ∧
    (∀ (v m : String) (t : Rat), sendMessage v m (some t) =
        { method := HttpMethod.post, path := "/api/chat/message",
          body := [("video_id", JsonVal.str v), ("message", JsonVal.str m),
                   ("current_timestamp", JsonVal.num t)] }) ∧
    (∀ (v : String) (ts : Rat) (c : String), createNote v ts c none =
        { method := HttpMethod.post, path := "/api/notes",
          body := [("video_id", JsonVal.str v), ("timestamp", JsonVal.num ts),
                   ("content", JsonVal.str c), ("tags", JsonVal.arr [])] }) ∧
    (∀ (v : String) (ts : Rat) (c : String) (tg : List String), createNote v ts c (some tg) =
        { method := HttpMethod.post, path := "/api/notes",
          body := [("video_id", JsonVal.str v), ("timestamp", JsonVal.num ts),
                   ("content", JsonVal.str c), ("tags", JsonVal.arr tg)] }) ∧
    (∀ (i : Nat) (c : Option String) (tg : Option (List String)), updateNoteRequest i c tg =
        { method := HttpMethod.put, path := "/api/notes/" ++ toString i,
          body := [("content", jsonOfStrOpt c), ("tags", jsonOfTagsOpt tg)] }) ∧
    (∀ i : Nat, deleteNoteRequest i =
        { method := HttpMethod.delete, path := "/api/notes/" ++ toString i, body := [] }) :=
  ⟨fun _ _ => rfl, fun _ _ _ => rfl, fun _ _ _ => rfl, fun _ _ _ _ => rfl,
   fun _ _ _ => rfl, fun _ => rfl⟩

/-- Appending one user-assistant exchange to an alternating log keeps it
alternating. -/
theorem alternates_append_pair (xs : List ChatMessage) (u a : ChatMessage)
    (hx : alternates xs = true) (hu : u.role = Role.user)
    (ha : a.role = Role.assistant) : alternates (xs ++ [u, a]) = true := by
  induction xs using alternates.induct with
  | case1 => simp [alternates, hu, ha]
  | case2 m => simp [alternates] at hx
  | case3 x y rest ih =>
      simp only [alternates, Bool.and_eq_true, beq_iff_eq] at hx
      simp only [List.cons_append, alternates, Bool.and_eq_true, beq_iff_eq]
      exact ⟨⟨hx.1.1, hx.1.2⟩, ih hx.2⟩

/-- A guard-passing successful `handleSend` appends exactly the trimmed user
message followed by the provider response. -/
theorem handleSend_ok_messages (q : String) (resp : ChatMessage) (s : LearningState)
    (hq : strTrim q ≠ "") (hv : s.currentVideo ≠ none) (hl : s.isLoadingChat = false) :
    (handleSend q (Except.ok resp) s).messages = s.messages ++ [userMsg (strTrim q), resp] := by
  have hguard : ¬(strTrim q = "" ∨ s.currentVideo = none ∨ s.isLoadingChat = true) := by
    simp [hq, hv, hl]
  simp [handleSend, hguard, addMessage, setIsLoadingChat]

/-- One successful `handleSend` preserves an alternating log, whatever the
guards do, provided the provider response has the assistant role. -/
theorem alternates_handleSend (q : String) (resp : ChatMessage) (s : LearningState)
    (hresp : resp.role = Role.assistant) (hs : alternates s.messages = true) :
    alternates ((handleSend q (Except.ok resp) s).messages) = true := by
  by_cases hg : strTrim q = "" ∨ s.currentVideo = none ∨ s.isLoadingChat = true
  · simpa [handleSend, hg] using hs
  · have : (handleSend q (Except.ok resp) s).messages =
        s.messages ++ [userMsg (strTrim q), resp] := by
      simp [handleSend, hg, addMessage, setIsLoadingChat]
    rw [this]
    exact alternates_append_pair s.messages _ _ hs rfl hresp

/-- Claim C4: every completed send appends exactly one user message
immediately followed by one assistant message, and after every sequence of
completed sends the message log alternates user/assistant starting with a
user message. -/
theorem chat_log_alternates :
    (∀ (q : String) (resp : ChatMessage) (s : LearningState),
        strTrim q ≠ "" → s.currentVideo ≠ none → s.isLoadingChat = false →
        (handleSend q (Except.ok resp) s).messages = s.messages ++ [userMsg (strTrim q), resp]) ∧
    ∀ (sends : List (String × ChatMessage)) (s : LearningState),
        alternates s.messages = true →
        (∀ p ∈ sends, (p.2 : ChatMessage).role = Role.assistant) →
        alternates ((sendAll sends s).messages) = true := by
  constructor
  · exact handleSend_ok_messages
  · intro sends
    induction sends with
    | nil => intro s hs _; exact hs
    | cons p ps ih =>
        intro s hs hroles
        have hstep := alternates_handleSend p.1 p.2 s (hroles p (by simp)) hs
        exact ih _ hstep (fun r hr => hroles r (by simp [hr]))

/-- Witness for claim C4: two successful sends from the empty log of
`chatState` leave an alternating log. -/
theorem chat_log_alternates_witness :
    alternates chatState.messages = true ∧
      (∀ p ∈ [("hi", demoResp), ("more", demoResp)],
          (p.2 : ChatMessage).role = Role.assistant) ∧
      alternates ((sendAll [("hi", demoResp), ("more", demoResp)] chatState).messages) = true :=
  ⟨by decide, by decide,
    chat_log_alternates.2 [("hi", demoResp), ("more", demoResp)] chatState (by decide) (by decide)⟩

/-- Claim C5: message persistence happens only after the provider response
returns — on a successful request `handleSend` appends the assistant
response after the user message, and on a failed request no assistant
message is ever appended (the count of assistant messages is unchanged) and
the error is surfaced via `setError`. -/
theorem handleSend_persistence (q : String) (resp : ChatMessage) (e : String)
    (s : LearningState) (hq : strTrim q ≠ "") (hv : s.currentVideo ≠ none)
    (hl : s.isLoadingChat = false) :
    (handleSend q (Except.ok resp) s).messages = s.messages ++ [userMsg (strTrim q), resp] ∧
      (handleSend q (Except.error e) s).messages = s.messages ++ [userMsg (strTrim q)] ∧
      (handleSend q (Except.error e) s).messages.countP (fun m => m.role == Role.assistant) =
        s.messages.countP (fun m => m.role == Role.assistant) ∧
      (handleSend q (Except.error e) s).error = some sendFailureText := by
  have hguard : ¬(strTrim q = "" ∨ s.currentVideo = none ∨ s.isLoadingChat = true) := by
    simp [hq, hv, hl]
  refine ⟨handleSend_ok_messages q resp s hq hv hl, ?_, ?_, ?_⟩
  · simp [handleSend, hguard, addMessage, setIsLoadingChat, setError]
  · simp [handleSend, hguard, addMessage, setIsLoadingChat, setError,
      List.countP_append, List.countP_cons, userMsg]
  · simp [handleSend, hguard, addMessage, setIsLoadingChat, setError]

/-- Witness for claim C5: a concrete send from `chatState`, once resolved
and once failed. -/
theorem handleSend_persistence_witness :
    strTrim "hi" ≠ "" ∧ chatState.currentVideo ≠ none ∧ chatState.isLoadingChat = false ∧
      ((handleSend "hi" (Except.ok demoResp) chatState).messages =
          chatState.messages ++ [userMsg (strTrim "hi"), demoResp] ∧
        (handleSend "hi" (Except.error "boom") chatState).messages =
          chatState.messages ++ [userMsg (strTrim "hi")] ∧
        (handleSend "hi" (Except.error "boom") chatState).messages.countP
            (fun m => m.role == Role.assistant) =
          chatState.messages.countP (fun m => m.role == Role.assistant) ∧
        (handleSend "hi" (Except.error "boom") chatState).error = some sendFailureText) :=
  ⟨by decide, by decide, by decide,
    handleSend_persistence "hi" demoResp "boom" chatState (by decide) (by decide) (by decide)⟩

/-- The top-5 similarity chunks are chunks of the input. -/
theorem Retriever.topChunks_subset (sim : Retriever.Chunk → Rat) (chunks : List Retriever.Chunk) :
    Retriever.topChunks sim chunks ⊆ chunks := fun _c hc =>
  (List.perm_insertionSort (Retriever.simRank sim) chunks).subset
    ((List.take_sublist 5 _).subset hc)

/-- The top-5 similarity chunks carry no duplicate ids when the input does
not. -/
theorem Retriever.topChunks_nodup (sim : Retriever.Chunk → Rat) (chunks : List Retriever.Chunk)
    (hn : (chunks.map Retriever.Chunk.id).Nodup) :
    ((Retriever.topChunks sim chunks).map Retriever.Chunk.id).Nodup := by
  have hsort : ((List.insertionSort (Retriever.simRank sim) chunks).map Retriever.Chunk.id).Nodup :=
    ((List.perm_insertionSort (Retriever.simRank sim) chunks).map Retriever.Chunk.id).nodup_iff.mpr hn
  exact List.Nodup.sublist (List.Sublist.map Retriever.Chunk.id (List.take_sublist 5 _)) hsort

/-- Claim C3: for every question (abstracted by its similarity scores `sim`)
and playback timestamp `t`, the context passed to the chat model is exactly
the deduplicated-by-chunk-id union of (a) the top-5 chunks by embedding
similarity (ties broken by `chunk_index` ascending, inside `topChunks`) and
(b) all chunks whose time window intersects `[t − 120, t + 120]`: the
retrieved list has no duplicate chunk ids and its members are exactly the
top-5 chunks together with the window chunks. -/
theorem Retriever.retrieveContext_union_spec (sim : Retriever.Chunk → Rat) (t : Rat)
    (chunks : List Retriever.Chunk) (hn : (chunks.map Retriever.Chunk.id).Nodup) :
    ((Retriever.retrieveContext sim t chunks).map Retriever.Chunk.id).Nodup ∧
      ∀ c : Retriever.Chunk, c ∈ Retriever.retrieveContext sim t chunks ↔
        (c ∈ Retriever.topChunks sim chunks ∨
          (c ∈ chunks ∧ Retriever.windowHit t c = true)) := by
  have hre : Retriever.retrieveContext sim t chunks =
      Retriever.topChunks sim chunks ++
        (Retriever.windowChunks t chunks).filter
          (fun c => !((Retriever.topChunks sim chunks).any (fun d => d.id == c.id))) := rfl
  have hfilsub : List.Sublist ((Retriever.windowChunks t chunks).filter
      (fun c => !((Retriever.topChunks sim chunks).any (fun d => d.id == c.id)))) chunks :=
    (List.filter_sublist _).trans (List.filter_sublist _)
  have hfilnodup : (((Retriever.windowChunks t chunks).filter
      (fun c => !((Retriever.topChunks sim chunks).any (fun d => d.id == c.id)))).map
        Retriever.Chunk.id).Nodup :=
    List.Nodup.sublist (List.Sublist.map Retriever.Chunk.id hfilsub) hn
  have hfilcond : ∀ c ∈ (Retriever.windowChunks t chunks).filter
      (fun c => !((Retriever.topChunks sim chunks).any (fun d => d.id == c.id))),
      ∀ d ∈ Retriever.topChunks sim chunks, d.id ≠ c.id := by
    intro c hc d hd
    have hcond := (List.mem_filter.mp hc).2
    simp only [Bool.not_eq_eq_eq_not, Bool.not_true, List.any_eq_false] at hcond
    have := hcond d hd
    simpa using this
  constructor
  · rw [hre, List.map_append]
    refine List.nodup_append.mpr ⟨Retriever.topChunks_nodup sim chunks hn, hfilnodup, ?_⟩
    intro x hxtop hxfil
    obtain ⟨d, hd, hdx⟩ := List.mem_map.mp hxtop
    obtain ⟨c, hc, hcx⟩ := List.mem_map.mp hxfil
    exact hfilcond c hc d hd (hdx.trans hcx.symm)
  · intro c
    rw [hre]
    constructor
    · intro hc
      rcases List.mem_append.mp hc with h | h
      · exact Or.inl h
      · have h1 := List.mem_filter.mp h
        have h2 := List.mem_filter.mp h1.1
        exact Or.inr ⟨h2.1, h2.2⟩
    · intro hc
      rcases hc with h | h
      · exact List.mem_append.mpr (Or.inl h)
      · by_cases htop : c ∈ Retriever.topChunks sim chunks
        · exact List.mem_append.mpr (Or.inl htop)
        · refine List.mem_append.mpr (Or.inr ?_)
          refine List.mem_filter.mpr ⟨List.mem_filter.mpr ⟨h.1, h.2⟩, ?_⟩
          simp only [Bool.not_eq_eq_eq_not, Bool.not_true, List.any_eq_false]
          intro d hd
          simp only [beq_iff_eq]
          intro hid
          have hdc : d = c := List.inj_on_of_nodup_map hn
            (Retriever.topChunks_subset sim chunks hd) h.1 hid
          exact htop (hdc ▸ hd)

/-- Witness for claim C3: the retriever run on the three concrete
`demoChunks` with similarity `demoSim` at timestamp 0. -/
theorem Retriever.retrieveContext_union_spec_witness :
    (demoChunks.map Retriever.Chunk.id).Nodup ∧
      (((Retriever.retrieveContext demoSim 0 demoChunks).map Retriever.Chunk.id).Nodup ∧
        ∀ c : Retriever.Chunk, c ∈ Retriever.retrieveContext demoSim 0 demoChunks ↔
          (c ∈ Retriever.topChunks demoSim demoChunks ∨
            (c ∈ demoChunks ∧ Retriever.windowHit 0 c = true))) :=
  ⟨by decide, Retriever.retrieveContext_union_spec demoSim 0 demoChunks (by decide)⟩

/-- The chunker's groups concatenate to the accumulator (reversed) followed
by the remaining input lines. -/
theorem Chunker.flatten_splitAux : ∀ (ls cur : List Chunker.Line) (tok : Nat),
    (Chunker.splitAux ls cur tok).flatten = cur.reverse ++ ls
  | [], cur, tok => by
    by_cases h : cur.isEmpty
    · simp [Chunker.splitAux, h, List.isEmpty_iff.mp h]
    · simp [Chunker.splitAux, h]
  | l :: ls, cur, tok => by
    by_cases h : 500 ≤ tok + l.tokens
    · simp [Chunker.splitAux, h, Chunker.flatten_splitAux ls [] 0]
    · simp [Chunker.splitAux, h, Chunker.flatten_splitAux ls (l :: cur) (tok + l.tokens)]

/-- Every group emitted by the chunker is nonempty. -/
theorem Chunker.splitAux_ne_nil : ∀ (ls cur : List Chunker.Line) (tok : Nat)
    (g : List Chunker.Line), g ∈ Chunker.splitAux ls cur tok → g ≠ []
  | [], cur, tok, g, hg => by
    by_cases h : cur.isEmpty
    · simp [Chunker.splitAux, h] at hg
    · simp [Chunker.splitAux, h] at hg
      subst hg
      simp only [ne_eq, List.reverse_eq_nil_iff]
      exact fun hc => h (by simp [hc])
  | l :: ls, cur, tok, g, hg => by
    by_cases h : 500 ≤ tok + l.tokens
    · rw [Chunker.splitAux, if_pos h] at hg
      rcases List.mem_cons.mp hg with hg | hg
      · subst hg
        simp
      · exact Chunker.splitAux_ne_nil ls [] 0 g hg
    · exact Chunker.splitAux_ne_nil ls (l :: cur) (tok + l.tokens) g
        (by simpa [Chunker.splitAux, h] using hg)

/-- A nonempty group of well-formed, consecutively timed lines has a
well-formed window: its first line starts no later than its last line
ends. -/
theorem Chunker.groupStart_le_groupEnd : ∀ (g : List Chunker.Line), g ≠ [] →
    List.Chain' (fun a b => Chunker.Line.end_time a ≤ Chunker.Line.start_time b) g →
    (∀ l ∈ g, l.start_time ≤ l.end_time) →
    Chunker.groupStart g ≤ Chunker.groupEnd g
  | [], hne, _, _ => absurd rfl hne
  | [a], _, _, hwf => by
    simpa [Chunker.groupStart, Chunker.groupEnd] using hwf a (by simp)
  | a :: b :: tl, _, hchain, hwf => by
    obtain ⟨hab, htl⟩ := List.chain'_cons.mp hchain
    have h1 : a.start_time ≤ a.end_time := hwf a (by simp)
    have h3 := Chunker.groupStart_le_groupEnd (b :: tl) (by simp) htl
      (fun l hl => hwf l (by simp [List.mem_cons] at hl ⊢; tauto))
    have h2 : Chunker.groupStart (b :: tl) = b.start_time := by
      simp [Chunker.groupStart]
    have h4 : Chunker.groupEnd (a :: b :: tl) = Chunker.groupEnd (b :: tl) := by
      simp [Chunker.groupEnd, List.getLast?_cons_cons]
    have h5 : Chunker.groupStart (a :: b :: tl) = a.start_time := by
      simp [Chunker.groupStart]
    rw [h4, h5]
    exact le_trans h1 (le_trans hab (h2 ▸ h3))

/-- Nonempty groups that concatenate to a well-formed, consecutively timed
line list have chained windows, each well formed. -/
theorem Chunker.chunkChain : ∀ (gs : List (List Chunker.Line)),
    (∀ g ∈ gs, g ≠ []) →
    List.Chain' (fun a b => Chunker.Line.end_time a ≤ Chunker.Line.start_time b) gs.flatten →
    (∀ l ∈ gs.flatten, l.start_time ≤ l.end_time) →
    List.Chain' (fun g h => Chunker.groupEnd g ≤ Chunker.groupStart h) gs ∧
      ∀ g ∈ gs, Chunker.groupStart g ≤ Chunker.groupEnd g
  | [], _, _, _ => ⟨List.chain'_nil, by simp⟩
  | g :: gs, hne, hord, hwf => by
    have hg : g ≠ [] := hne g (by simp)
    rw [List.flatten_cons] at hord hwf
    obtain ⟨cg, crest, cross⟩ := List.chain'_append.mp hord
    have hwfg : ∀ l ∈ g, l.start_time ≤ l.end_time :=
      fun l hl => hwf l (List.mem_append.mpr (Or.inl hl))
    have hwfrest : ∀ l ∈ gs.flatten, l.start_time ≤ l.end_time :=
      fun l hl => hwf l (List.mem_append.mpr (Or.inr hl))
    have IH := Chunker.chunkChain gs (fun h2 hh2 => hne h2 (by simp [hh2])) crest hwfrest
    constructor
    · rw [List.chain'_cons']
      refine ⟨?_, IH.1⟩
      intro h2 hh2
      cases gs with
      | nil => simp at hh2
      | cons hh rest =>
          simp only [List.head?_cons, Option.mem_def, Option.some.injEq] at hh2
          subst hh2
          have hhne : hh ≠ [] := hne hh (by simp)
          obtain ⟨a, t, rfl⟩ := List.exists_cons_of_ne_nil hhne
          have hglast : g.getLast? = some (g.getLast hg) := List.getLast?_eq_getLast g hg
          have hcross := cross (g.getLast hg) (by rw [hglast]; simp) a
            (by simp [List.flatten_cons])
          unfold Chunker.groupEnd Chunker.groupStart
          rw [hglast]
          simpa using hcross
    · intro h2 hh2
      rcases List.mem_cons.mp hh2 with rfl | hh2
      · exact Chunker.groupStart_le_groupEnd _ hg cg hwfg
      · exact IH.2 h2 hh2

/-- A run of windows that are individually well formed and chained
end-before-start is pairwise non-overlapping. -/
theorem chain_pairwise_windows {α : Type} (f g : α → Rat) : ∀ (l : List α),
    (∀ x ∈ l, f x ≤ g x) → List.Chain' (fun a b => g a ≤ f b) l →
    List.Pairwise (fun a b => g a ≤ f b) l
  | [], _, _ => List.Pairwise.nil
  | [a], _, _ => by simp
  | a :: b :: t, hwf, hchain => by
    obtain ⟨hab, ht⟩ := List.chain'_cons.mp hchain
    have IH := chain_pairwise_windows f g (b :: t)
      (fun x hx => hwf x (by simp [List.mem_cons] at hx ⊢; tauto)) ht
    refine List.Pairwise.cons ?_ IH
    intro x hx
    rcases List.mem_cons.mp hx with rfl | hx'
    · exact hab
    · have hbx := (List.pairwise_cons.mp IH).1 x hx'
      exact le_trans hab (le_trans (hwf b (by simp)) hbx)

/-- Members of `enumFrom k l` have index at least `k` and value in `l`. -/
theorem mem_enumFrom_imp {α : Type} : ∀ (l : List α) (k : Nat) (p : Nat × α),
    p ∈ l.enumFrom k → k ≤ p.1 ∧ p.2 ∈ l
  | [], k, p, h => by simp [List.enumFrom] at h
  | a :: t, k, p, h => by
    simp only [List.enumFrom, List.mem_cons] at h
    rcases h with rfl | h
    · exact ⟨le_refl k, by simp⟩
    · have := mem_enumFrom_imp t (k + 1) p h
      exact ⟨by omega, by simp [this.2]⟩

/-- `enumFrom` keeps a pairwise relation on the values and makes the indices
strictly increasing. -/
theorem pairwise_enumFrom {α : Type} (R : α → α → Prop) : ∀ (l : List α) (k : Nat),
    List.Pairwise R l →
    List.Pairwise (fun p q : Nat × α => p.1 < q.1 ∧ R p.2 q.2) (l.enumFrom k)
  | [], _, _ => by simp [List.enumFrom]
  | a :: t, k, h => by
    obtain ⟨ha, ht⟩ := List.pairwise_cons.mp h
    simp only [List.enumFrom]
    refine List.Pairwise.cons ?_ (pairwise_enumFrom R t (k + 1) ht)
    intro q hq
    obtain ⟨hk, hmem⟩ := mem_enumFrom_imp t (k + 1) q hq
    exact ⟨by omega, ha q.2 hmem⟩

/-- The demo transcript lines are consecutively timed. -/
theorem demoLinesOrdered : Chunker.linesOrdered demoLines := by
  refine List.Chain'.cons (by decide) (List.Chain'.cons (by decide) ?_)
  exact List.chain'_singleton _

/-- Claim C8: for every transcript (whose lines carry well-formed,
consecutive timing) the chunker produces an ordered sequence of chunks that
cover the full transcript (the groups concatenate back to the input lines),
carry strictly increasing `chunk_index` values, and are pairwise
non-overlapping in their `[start_time, end_time]` windows. -/
theorem Chunker.chunkTranscript_invariants (lines : List Chunker.Line)
    (hord : Chunker.linesOrdered lines) (hwf : Chunker.linesWF lines) :
    (Chunker.chunkGroups lines).flatten = lines ∧
      List.Pairwise (fun c d : Chunker.Chunk => c.chunk_index < d.chunk_index)
        (Chunker.chunkTranscript lines) ∧
      List.Pairwise (fun c d : Chunker.Chunk => c.end_time ≤ d.start_time)
        (Chunker.chunkTranscript lines) := by
  have hflat : (Chunker.chunkGroups lines).flatten = lines := by
    simpa [Chunker.chunkGroups] using Chunker.flatten_splitAux lines [] 0
  have hne : ∀ g ∈ Chunker.chunkGroups lines, g ≠ [] :=
    fun g hg => Chunker.splitAux_ne_nil lines [] 0 g hg
  have hordf : List.Chain' (fun a b => Chunker.Line.end_time a ≤ Chunker.Line.start_time b)
      (Chunker.chunkGroups lines).flatten := by
    rw [hflat]; exact hord
  have hwff : ∀ l ∈ (Chunker.chunkGroups lines).flatten, l.start_time ≤ l.end_time := by
    rw [hflat]; exact hwf
  obtain ⟨hgchain, hgwf⟩ := Chunker.chunkChain (Chunker.chunkGroups lines) hne hordf hwff
  have hgpairs : List.Pairwise (fun g h => Chunker.groupEnd g ≤ Chunker.groupStart h)
      (Chunker.chunkGroups lines) :=
    chain_pairwise_windows Chunker.groupStart Chunker.groupEnd _ hgwf hgchain
  have hidx := pairwise_enumFrom (fun g h => Chunker.groupEnd g ≤ Chunker.groupStart h)
    (Chunker.chunkGroups lines) 0 hgpairs
  have henum : (Chunker.chunkGroups lines).enum = (Chunker.chunkGroups lines).enumFrom 0 := rfl
  refine ⟨hflat, ?_, ?_⟩
  · unfold Chunker.chunkTranscript
    rw [List.pairwise_map, henum]
    exact hidx.imp (fun h => h.1)
  · unfold Chunker.chunkTranscript
    rw [List.pairwise_map, henum]
    exact hidx.imp (fun h => h.2)

/-- Witness for claim C8: the chunker run on the three concrete 300-token
`demoLines`, which it groups into a 600-token chunk and a 300-token
chunk. -/
theorem Chunker.chunkTranscript_invariants_witness :
    Chunker.linesOrdered demoLines ∧ Chunker.linesWF demoLines ∧
      ((Chunker.chunkGroups demoLines).flatten = demoLines ∧
        List.Pairwise (fun c d : Chunker.Chunk => c.chunk_index < d.chunk_index)
          (Chunker.chunkTranscript demoLines) ∧
        List.Pairwise (fun c d : Chunker.Chunk => c.end_time ≤ d.start_time)
          (Chunker.chunkTranscript demoLines)) :=
  ⟨demoLinesOrdered, by decide,
    Chunker.chunkTranscript_invariants demoLines demoLinesOrdered (by decide)⟩

end Grasp
